import Mathlib

/-
Verification of tools/autogen.py: a declaration-driven code generator that
reads a C header (via pycparser, an external trusted parser) and emits four
text artifacts: the dispatch-table struct declaration (autogen_ctx.h), the
trampoline set (autogen_func.h), the static initializer (autogen_ctx_def.h)
and a PyPy-side descriptor listing (autogen_pypy.txt).

The embedding models the pycparser AST nodes only through the fields the
generator actually reads: for a function declaration, the rendered return
type (toC(node.type.type)), the declared name, and the parameter list where
each parameter is either a named parameter (with its pycparser-rendered
text) or the ellipsis marker.  Python-level partial operations (negative
list indexing, attribute access on EllipsisParam, str.join over None) are
modelled with Option; a raised exception is Option.none / Except.error.
-/

namespace Autogen

/-- Python's s.join(list) for a separator, as used via "', '.join(params)"
and "'\n'.join(lines)" in autogen.py. -/
def joinWith (sep : String) : List String → String
  | [] => ""
  | [a] => a
  | a :: b :: rest => a ++ sep ++ joinWith sep (b :: rest)

/-- Python list indexing l[i] with negative-index wraparound: l[i] for
i >= 0 is the i-th element, for i < 0 it is l[len(l)+i]; out of range is an
IndexError, modelled as none. -/
def pyGet {α : Type} (l : List α) (i : Int) : Option α :=
  if 0 ≤ i then l[i.toNat]?
  else if 0 ≤ (l.length : Int) + i then l[((l.length : Int) + i).toNat]?
  else none

/-- Python '%s' formatting of a value that may be None. -/
def pyStr : Option String → String
  | some s => s
  | none => "None"

/-- Python str.upper (ASCII, as used on slot names like h_None). -/
def pyUpper (s : String) : String :=
  (s.toList.map Char.toUpper).asString

/-- Python str.startswith. -/
def pyStartsWith (s pre : String) : Bool :=
  pre.toList.isPrefixOf s.toList

/-- Strip one leading underscore if present (the effect of the optional
leading "_?" of the regex, and of the optional "_?" after "HPy"). -/
def dropUL : List Char → List Char
  | '_' :: rest => rest
  | cs => cs

/-- One parameter of a pycparser ParamList: either a named parameter
(Decl/Typename, whose .name may be Python None) carrying its rendered text,
or the EllipsisParam marker (which has no .name attribute). -/
inductive CParam where
  | named (name : Option String) (rendered : String)
  | ellipsis
deriving DecidableEq, Repr

/-- The fields of a pycparser function declaration that autogen.py reads:
the rendered return type toC(node.type.type) and node.type.args.params. -/
structure FuncNode where
  retC : String
  params : List CParam
deriving DecidableEq, Repr

/-- class Function of autogen.py: a declared name plus its AST node. -/
structure Function where
  name : String
  node : FuncNode
deriving DecidableEq, Repr

/-- The fields of a global-variable declaration that autogen.py reads:
the rendered type toC(node.type.type), e.g. "HPy". -/
structure VarNode where
  typC : String
deriving DecidableEq, Repr

/-- class GlobalVar of autogen.py. -/
structure GlobalVar where
  name : String
  node : VarNode
deriving DecidableEq, Repr

/-- The semantics of re.sub(r'hat _?HPy_?', 'ctx_', name) restricted to the
single anchored match: if the name begins with an optional underscore, then
"HPy", then an optional underscore, that prefix is the match; otherwise the
name is unchanged.  Returns the remainder after the match, or none. -/
def ctxStem : List Char → Option (List Char)
  | '_' :: 'H' :: 'P' :: 'y' :: rest => some (dropUL rest)
  | 'H' :: 'P' :: 'y' :: rest => some (dropUL rest)
  | _ => none

/-- Function.ctx_name: _CTX_NAME.sub(r'ctx_', self.name), e.g.
"HPyModule_Create" becomes "ctx_Module_Create". -/
def Function.ctx_name (f : Function) : String :=
  match ctxStem f.name.toList with
  | some stem => "ctx_" ++ stem.asString
  | none => f.name

/-- Function.ctx_impl_name: '&%s' % self.ctx_name(). -/
def Function.ctx_impl_name (f : Function) : String :=
  "&" ++ f.ctx_name

/-- Function.is_varargs: len(params) > 0 and params[-1] is EllipsisParam. -/
def Function.is_varargs (f : Function) : Bool :=
  decide (0 < f.node.params.length) &&
    (f.node.params.getLast? == some CParam.ellipsis)

/-- The va_list replacement argument built in Function.ctx_decl:
c_ast.Decl('_vl', ..., TypeDecl('_vl', [], IdentifierType(['va_list']))),
which pycparser renders as "va_list _vl". -/
def vaListParam : CParam := CParam.named (some "_vl") "va_list _vl"

/-- The parameter list of the function-pointer declaration emitted by
Function.ctx_decl: the original parameters, with the trailing ellipsis
replaced by the va_list argument when the function is variadic
(newnode.type.type.args.params[-1] = arg). -/
def Function.ctxDeclParams (f : Function) : List CParam :=
  if f.is_varargs then f.node.params.dropLast ++ [vaListParam]
  else f.node.params

/-- Rendering of one parameter by pycparser's CGenerator: a named
parameter renders as its declaration text, EllipsisParam renders as "...". -/
def renderParam : CParam → String
  | CParam.named _ r => r
  | CParam.ellipsis => "..."

/-- Rendering by pycparser's CGenerator of a plain function declaration
(toC(self.node)), e.g. "HPy HPyModule_Create(HPyContext ctx, HPyModuleDef *def)". -/
def renderFuncDecl (name : String) (n : FuncNode) : String :=
  n.retC ++ " " ++ name ++ "(" ++ joinWith ", " (n.params.map renderParam) ++ ")"

/-- Function.ctx_decl: deepcopy the node, wrap its type in a PtrDecl,
replace a trailing ellipsis by the va_list argument, rename the inner
TypeDecl to ctx_name, and render; pycparser renders the result as
"ret (*ctx_name)(params)". -/
def Function.ctx_decl (f : Function) : String :=
  f.node.retC ++ " (*" ++ f.ctx_name ++ ")(" ++
    joinWith ", " (f.ctxDeclParams.map renderParam) ++ ")"

/-- The name lookup performed by the list comprehensions
"[p.name for p in params]" followed by ', '.join: EllipsisParam has no
.name (AttributeError) and a None name makes join raise TypeError, so both
are failures. -/
def CParam.strictName : CParam → Option String
  | CParam.named (some s) _ => some s
  | CParam.named none _ => none
  | CParam.ellipsis => none

/-- All names of a parameter list, failing if any lookup fails. -/
def strictNames : List CParam → Option (List String)
  | [] => some []
  | p :: ps =>
    match CParam.strictName p, strictNames ps with
    | some n, some ns => some (n :: ns)
    | _, _ => none

/-- Function.trampoline_def, as the list of parts appended to `parts`
before ' '.join; none models a raised exception (IndexError on params[-2]
for a parameter list of length < 2, AttributeError reading .name of an
EllipsisParam, TypeError joining a None name). -/
def Function.trampolineParts (f : Function) : Option (List String) :=
  let rettype := f.node.retC
  let head : List String :=
    ["static inline", renderFuncDecl f.name f.node, "\x7b\n    "]
  if f.is_varargs then
    match pyGet f.node.params (-2) with
    | none => none
    | some CParam.ellipsis => none
    | some (CParam.named n _) =>
      let lastParam := pyStr n
      match strictNames f.node.params.dropLast with
      | none => none
      | some ns =>
        let callw :=
          if rettype = "void" then "ctx->" ++ f.ctx_name
          else rettype ++ " _res = ctx->" ++ f.ctx_name
        some (head ++
          ["va_list _vl;", "va_start(_vl, " ++ lastParam ++ ");",
           callw, "(", joinWith ", " (ns ++ ["_vl"]), ");", "va_end(_vl);"] ++
          (if rettype = "void" then [] else ["return _res;"]) ++ ["\n\x7d"])
  else
    match strictNames f.node.params with
    | none => none
    | some ns =>
      let callw :=
        if rettype = "void" then "ctx->" ++ f.ctx_name
        else "return ctx->" ++ f.ctx_name
      some (head ++ [callw, "(", joinWith ", " ns, ");", "\n\x7d"])

/-- Function.trampoline_def's returned string: ' '.join(parts). -/
def Function.trampoline_text (f : Function) : Option String :=
  (f.trampolineParts).map (joinWith " ")

/-- Function.ctx_pypy_type. -/
def Function.ctx_pypy_type (_f : Function) : String := "rffi.VOIDP"

/-- GlobalVar.ctx_name: the declared name unchanged. -/
def GlobalVar.ctx_name (g : GlobalVar) : String := g.name

/-- GlobalVar.ctx_impl_name: '(HPy)\x7bCONSTANT_%s\x7d' % name.upper(). -/
def GlobalVar.ctx_impl_name (g : GlobalVar) : String :=
  "(HPy)\x7bCONSTANT_" ++ pyUpper g.name ++ "\x7d"

/-- GlobalVar.ctx_decl: toC(self.node), e.g. "HPy h_None". -/
def GlobalVar.ctx_decl (g : GlobalVar) : String :=
  g.node.typC ++ " " ++ g.name

/-- GlobalVar.ctx_pypy_type. -/
def GlobalVar.ctx_pypy_type (_g : GlobalVar) : String := "HPy"

/-- An accepted entry: class Function or class GlobalVar. -/
inductive Declaration where
  | func (f : Function)
  | var (g : GlobalVar)
deriving DecidableEq, Repr

def Declaration.ctx_name : Declaration → String
  | Declaration.func f => f.ctx_name
  | Declaration.var g => g.ctx_name

def Declaration.ctx_impl_name : Declaration → String
  | Declaration.func f => f.ctx_impl_name
  | Declaration.var g => g.ctx_impl_name

def Declaration.ctx_decl : Declaration → String
  | Declaration.func f => f.ctx_decl
  | Declaration.var g => g.ctx_decl

def Declaration.ctx_pypy_type : Declaration → String
  | Declaration.func f => f.ctx_pypy_type
  | Declaration.var g => g.ctx_pypy_type

/-- trampoline_def dispatched over the two entry kinds: the outer Option is
a raised exception, the inner Option is Python None (GlobalVar, which the
trampoline generator then skips). -/
def Declaration.trampoline_def : Declaration → Option (Option String)
  | Declaration.func f =>
    match f.trampoline_text with
    | some t => some (some t)
    | none => none
  | Declaration.var _ => some none

/-- A raw top-level node as seen by FuncDeclVisitor.visit_Decl: a Decl
whose type is a FuncDecl, a Decl whose type is a TypeDecl, or anything
else (ignored by the visitor). -/
inductive RawDecl where
  | func (name : String) (node : FuncNode)
  | var (name : String) (node : VarNode)
  | other
deriving DecidableEq, Repr

/-- One visitor step (FuncDeclVisitor._visit_function /
_visit_global_var): a warned-and-dropped declaration leaves the collected
list unchanged; an unnamed parameter of an accepted function raises
ValueError; a wrong constant type fails the assert. -/
def classifyDecl (acc : List Declaration) : RawDecl → Except String (List Declaration)
  | RawDecl.func name node =>
    if pyStartsWith name "HPy" || pyStartsWith name "_HPy" then
      if node.params.any (fun p =>
          match p with
          | CParam.named none _ => true
          | _ => false) then
        Except.error ("non-named argument in declaration of " ++ name)
      else
        Except.ok (acc ++ [Declaration.func ⟨name, node⟩])
    else
      Except.ok acc
  | RawDecl.var name node =>
    if pyStartsWith name "h_" then
      if node.typC = "HPy" then
        Except.ok (acc ++ [Declaration.var ⟨name, node⟩])
      else
        Except.error "AssertionError: toC(node.type.type) == HPy"
    else
      Except.ok acc
  | RawDecl.other => Except.ok acc

/-- AutoGen.collect_declarations: visit every top-level node in order,
accumulating accepted entries; the first raised exception aborts. -/
def classify (raws : List RawDecl) : Except String (List Declaration) :=
  raws.foldlM classifyDecl []

/-- The DISCLAIMER string of autogen.py (a triple-quoted string beginning
and ending with a newline). -/
def DISCLAIMER : String :=
  "\n/*\n   DO NOT EDIT THIS FILE!\n\n   This file is automatically generated by tools/autogen.py from tools/public_api.h.\n   Run this to regenerate:\n       make autogen\n\n*/\n"

/-- AutoGen.gen_ctx_decl: the struct _HPyContext_s declaration, built by
appending one line per declaration to the fixed first two lines. -/
def gen_ctx_decl (ds : List Declaration) : String :=
  let lines :=
    ds.foldl (fun acc d => acc ++ ["    " ++ d.ctx_decl ++ ";"])
      ["struct _HPyContext_s \x7b", "    int ctx_version;"]
  joinWith "\n" (lines ++ ["\x7d;"])

/-- AutoGen.gen_ctx_def: the static initializer global_ctx. -/
def gen_ctx_def (ds : List Declaration) : String :=
  let lines :=
    ds.foldl
      (fun acc d => acc ++ ["    ." ++ d.ctx_name ++ " = " ++ d.ctx_impl_name ++ ","])
      ["struct _HPyContext_s global_ctx = \x7b", "    .ctx_version = 1,"]
  joinWith "\n" (lines ++ ["\x7d;"])

/-- The loop body of AutoGen.gen_func_trampolines: for each declaration in
order take trampoline_def(); a raised exception aborts the loop; a None
result is skipped ("if trampoline:"; the generated text always begins with
"static inline", so it is never the empty string and Python truthiness
coincides with non-None); otherwise the text and a blank line are appended
to the accumulated lines. -/
def trampolineLoop (acc : List String) : List Declaration → Option (List String)
  | [] => some acc
  | d :: ds =>
    match d.trampoline_def with
    | none => none
    | some none => trampolineLoop acc ds
    | some (some t) => trampolineLoop (acc ++ [t, ""]) ds

/-- AutoGen.gen_func_trampolines: run the loop from an empty line list and
join with newlines. -/
def gen_func_trampolines (ds : List Declaration) : Option String :=
  (trampolineLoop [] ds).map (joinWith "\n")

/-- AutoGen.gen_pypy_decl: the rffi.CStruct descriptor listing. -/
def gen_pypy_decl (ds : List Declaration) : String :=
  let lines :=
    ds.foldl
      (fun acc d =>
        acc ++ ["    (\x27" ++ d.ctx_name ++ "\x27, " ++ d.ctx_pypy_type ++ "),"])
      ["HPyContextS = rffi.CStruct(\x27_HPyContext_s\x27,",
       "    (\x27ctx_version\x27, rffi.INT_real),"]
  joinWith "\n" (lines ++ ["    hints=\x7b\x27eci\x27: eci\x7d,", ")"])

/-- The four files written by main(); each stored string is the full file
content (print appends one newline per call). -/
structure Artifacts where
  autogen_ctx : String
  autogen_func : String
  autogen_ctx_def : String
  autogen_pypy : String
deriving DecidableEq, Repr

/-- main(): parse and classify (AutoGen.__init__), then compute all four
texts, then write the files.  Any exception during classification or
generation occurs before the first file is opened, so an error means zero
artifacts are written.  The pypy file is written without the DISCLAIMER. -/
def runMain (raws : List RawDecl) : Except String Artifacts :=
  match classify raws with
  | Except.error e => Except.error e
  | Except.ok decls =>
    match gen_func_trampolines decls with
    | none => Except.error "exception during trampoline generation"
    | some trampolines =>
      Except.ok
        { autogen_ctx := DISCLAIMER ++ "\n" ++ gen_ctx_decl decls ++ "\n"
          autogen_func := DISCLAIMER ++ "\n" ++ trampolines ++ "\n"
          autogen_ctx_def := DISCLAIMER ++ "\n" ++ gen_ctx_def decls ++ "\n"
          autogen_pypy := gen_pypy_decl decls ++ "\n" }

/-- Whether an Except run succeeded. -/
def exceptOk {ε α : Type} : Except ε α → Bool
  | Except.ok _ => true
  | Except.error _ => false


theorem exists_append_of_isPrefixOf {α : Type} [BEq α] [LawfulBEq α] :
    ∀ {pre cs : List α}, pre.isPrefixOf cs = true → ∃ t, cs = pre ++ t := by
  intro pre
  induction pre with
  | nil => intro cs _; exact ⟨cs, rfl⟩
  | cons a as ih =>
    intro cs h
    cases cs with
    | nil => simp [List.isPrefixOf] at h
    | cons b bs =>
      simp only [List.isPrefixOf, Bool.and_eq_true, beq_iff_eq] at h
      obtain ⟨h1, h2⟩ := h
      obtain ⟨t, ht⟩ := ih h2
      exact ⟨t, by simp [h1, ht]⟩

theorem pyStartsWith_toList {s pre : String} (h : pyStartsWith s pre = true) :
    ∃ t, s.toList = pre.toList ++ t :=
  exists_append_of_isPrefixOf h

theorem foldl_append_map {α β : Type} (g : α → β) :
    ∀ (l : List α) (init : List β),
      l.foldl (fun acc x => acc ++ [g x]) init = init ++ l.map g := by
  intro l
  induction l with
  | nil => intro init; simp
  | cons x xs ih => intro init; simp [List.foldl_cons, ih]

theorem joinWith_cons_exists (sep a : String) (l : List String) :
    ∃ t, joinWith sep (a :: l) = a ++ t := by
  cases l with
  | nil => exact ⟨"", by simp [joinWith]⟩
  | cons b rest => exact ⟨sep ++ joinWith sep (b :: rest), by simp [joinWith, String.append_assoc]⟩

theorem pyGet_neg2 {α : Type} (l : List α) (a b : α) :
    pyGet (l ++ [a, b]) (-2) = some a := by
  simp only [pyGet]
  rw [if_neg (by norm_num)]
  have h1 : ((l ++ [a, b]).length : Int) + (-2) = (l.length : Int) := by
    simp only [List.length_append, List.length_cons, List.length_nil]
    push_cast
    omega
  rw [h1]
  rw [if_pos (by positivity)]
  have h3 : ((l.length : Int)).toNat = l.length := by simp
  rw [h3]
  rw [List.getElem?_append_right (Nat.le_refl _)]
  simp

theorem dropLast_pair {α : Type} (l : List α) (a b : α) :
    (l ++ [a, b]).dropLast = l ++ [a] := by
  have h : l ++ [a, b] = (l ++ [a]) ++ [b] := by simp
  rw [h, List.dropLast_concat]

theorem getLast_pair {α : Type} (l : List α) (a b : α) :
    (l ++ [a, b]).getLast? = some b := by
  have h : l ++ [a, b] = (l ++ [a]) ++ [b] := by simp
  rw [h, List.getLast?_concat]

theorem strictNames_append :
    ∀ (l₁ l₂ : List CParam),
      strictNames (l₁ ++ l₂) =
        match strictNames l₁, strictNames l₂ with
        | some n₁, some n₂ => some (n₁ ++ n₂)
        | _, _ => none := by
  intro l₁
  induction l₁ with
  | nil =>
    intro l₂
    show strictNames l₂ = _
    cases strictNames l₂ <;> rfl
  | cons p ps ih =>
    intro l₂
    have h : strictNames ((p :: ps) ++ l₂) =
        match CParam.strictName p, strictNames (ps ++ l₂) with
        | some n, some ns => some (n :: ns)
        | _, _ => none := rfl
    rw [h, ih]
    cases hp : CParam.strictName p <;> cases h1 : strictNames ps <;>
      cases h2 : strictNames l₂ <;> simp [strictNames, hp, h1, h2]



theorem trampolineParts_variadic (f : Function) (qs : List CParam)
    (lastn rl : String) (ms : List String)
    (hps : f.node.params = qs ++ [CParam.named (some lastn) rl, CParam.ellipsis])
    (hqs : strictNames qs = some ms) :
    f.trampolineParts = some
      (["static inline", renderFuncDecl f.name f.node, "\x7b\n    ",
        "va_list _vl;", "va_start(_vl, " ++ lastn ++ ");",
        (if f.node.retC = "void" then "ctx->" ++ f.ctx_name
         else f.node.retC ++ " _res = ctx->" ++ f.ctx_name),
        "(", joinWith ", " ((ms ++ [lastn]) ++ ["_vl"]), ");", "va_end(_vl);"] ++
       (if f.node.retC = "void" then [] else ["return _res;"]) ++ ["\n\x7d"]) := by
  have hvar : f.is_varargs = true := by
    simp [Function.is_varargs, hps, getLast_pair]
  have hget : pyGet f.node.params (-2) = some (CParam.named (some lastn) rl) := by
    rw [hps, pyGet_neg2]
  have hdrop : strictNames f.node.params.dropLast = some (ms ++ [lastn]) := by
    rw [hps, dropLast_pair, strictNames_append, hqs]
    rfl
  simp only [Function.trampolineParts, hvar, if_true, hget, hdrop, pyStr]
  rfl

theorem trampolineParts_only_ellipsis (f : Function)
    (hps : f.node.params = [CParam.ellipsis]) :
    f.trampolineParts = none ∧ pyGet f.node.params (-2) = none := by
  have hvar : f.is_varargs = true := by
    simp [Function.is_varargs, hps]
  have hget : pyGet f.node.params (-2) = none := by
    rw [hps]; rfl
  constructor
  · simp only [Function.trampolineParts, hvar, if_true, hget]
  · exact hget

theorem trampolineParts_shape (f : Function) (L : List String)
    (h : f.trampolineParts = some L) :
    ∃ rest, L = "static inline" :: renderFuncDecl f.name f.node :: rest := by
  unfold Function.trampolineParts at h
  by_cases hv : f.is_varargs = true
  · rw [if_pos hv] at h
    match hg : pyGet f.node.params (-2) with
    | none => rw [hg] at h; exact absurd h (by simp)
    | some CParam.ellipsis => rw [hg] at h; exact absurd h (by simp)
    | some (CParam.named n r) =>
      rw [hg] at h
      match hs : strictNames f.node.params.dropLast with
      | none => rw [hs] at h; exact absurd h (by simp)
      | some ns =>
        rw [hs] at h
        simp only [Option.some.injEq] at h
        exact ⟨_, h.symm⟩
  · rw [if_neg hv] at h
    match hs : strictNames f.node.params with
    | none => rw [hs] at h; exact absurd h (by simp)
    | some ns =>
      rw [hs] at h
      simp only [Option.some.injEq] at h
      exact ⟨_, h.symm⟩



/-- strictNames preserves the length of the parameter list. -/
theorem strictNames_length :
    ∀ {l : List CParam} {ns : List String}, strictNames l = some ns → ns.length = l.length := by
  intro l
  induction l with
  | nil => intro ns h; cases h; rfl
  | cons p ps ih =>
    intro ns h
    unfold strictNames at h
    match hp : CParam.strictName p, hps : strictNames ps with
    | some n, some ns' =>
      rw [hp, hps] at h
      cases h
      simp [ih hps]
    | some n, none => rw [hp, hps] at h; cases h
    | none, some ns' => rw [hp, hps] at h; cases h
    | none, none => rw [hp, hps] at h; cases h

/-- The variadic declaration HPy HPyErr_Format(HPyContext ctx, const char *fmt, ...)
used as a concrete test input (scenario B of the spec). -/
def errFormat : Function :=
  ⟨"HPyErr_Format",
   ⟨"HPy", [CParam.named (some "ctx") "HPyContext ctx",
            CParam.named (some "fmt") "const char *fmt",
            CParam.ellipsis]⟩⟩

/-- Claim C1: for an accepted variadic callable with fixed named parameters
qs ++ [lastn] followed by the ellipsis, the generated trampoline (a) starts
the va_list capture scoped to lastn, the last named parameter immediately
preceding the ellipsis; (b) forwards through the slot exactly the fixed
parameter names in order followed by the captured handle _vl, i.e. N+1
arguments for N fixed parameters; (c) ends the capture with va_end on the
single exit path before the closing brace and before any return statement;
(d) returns the callee's result as in the non-variadic case, as a bare
statement when the return type is void. -/
theorem variadic_trampoline_correct (f : Function) (qs : List CParam)
    (lastn rl : String) (ms : List String)
    (hps : f.node.params = qs ++ [CParam.named (some lastn) rl, CParam.ellipsis])
    (hqs : strictNames qs = some ms) :
    f.trampolineParts = some
      (["static inline", renderFuncDecl f.name f.node, "\x7b\n    ",
        "va_list _vl;", "va_start(_vl, " ++ lastn ++ ");",
        (if f.node.retC = "void" then "ctx->" ++ f.ctx_name
         else f.node.retC ++ " _res = ctx->" ++ f.ctx_name),
        "(", joinWith ", " ((ms ++ [lastn]) ++ ["_vl"]), ");", "va_end(_vl);"] ++
       (if f.node.retC = "void" then [] else ["return _res;"]) ++ ["\n\x7d"]) ∧
    ((ms ++ [lastn]) ++ ["_vl"]).length = (qs.length + 1) + 1 := by
  refine ⟨trampolineParts_variadic f qs lastn rl ms hps hqs, ?_⟩
  simp [strictNames_length hqs]

/-- Witness for C1 at the concrete declaration
HPy HPyErr_Format(HPyContext ctx, const char *fmt, ...). -/
theorem variadic_trampoline_correct_witness :
    errFormat.trampolineParts = some
      ["static inline", "HPy HPyErr_Format(HPyContext ctx, const char *fmt, ...)",
       "\x7b\n    ", "va_list _vl;", "va_start(_vl, fmt);",
       "HPy _res = ctx->ctx_Err_Format", "(", "ctx, fmt, _vl", ");",
       "va_end(_vl);", "return _res;", "\n\x7d"] ∧
    ((["ctx"] ++ ["fmt"]) ++ ["_vl"]).length = (1 + 1) + 1 :=
  variadic_trampoline_correct errFormat
    [CParam.named (some "ctx") "HPyContext ctx"] "fmt" "const char *fmt" ["ctx"]
    rfl rfl



/-- Claim C3: for an accepted variadic callable, the parameter list of the
slot's function-pointer field is the original fixed parameters with the
trailing ellipsis replaced by the single "va_list _vl" parameter; the
emitted field declaration is the signature rewritten as a pointer-to-
function over that ellipsis-free list (pycparser emits "..." only for an
EllipsisParam node, and none remains), while the trampoline's own
signature is the unmodified original declaration, whose parameter renders
still include the raw "...". -/
theorem variadic_slot_type_va_list (f : Function) (ps : List CParam)
    (hps : f.node.params = ps ++ [CParam.ellipsis])
    (hno : CParam.ellipsis ∉ ps) :
    f.ctxDeclParams = ps ++ [vaListParam] ∧
    CParam.ellipsis ∉ f.ctxDeclParams ∧
    f.ctx_decl = f.node.retC ++ " (*" ++ f.ctx_name ++ ")(" ++
      joinWith ", " (ps.map renderParam ++ ["va_list _vl"]) ++ ")" ∧
    "..." ∈ f.node.params.map renderParam ∧
    (∀ L, f.trampolineParts = some L → renderFuncDecl f.name f.node ∈ L) := by
  have hvar : f.is_varargs = true := by
    simp [Function.is_varargs, hps, List.getLast?_concat]
  have hparams : f.ctxDeclParams = ps ++ [vaListParam] := by
    simp only [Function.ctxDeclParams, hvar, if_true, hps, List.dropLast_concat]
  refine ⟨hparams, ?_, ?_, ?_, ?_⟩
  · rw [hparams]
    simp only [List.mem_append, List.mem_singleton]
    rintro (h | h)
    · exact hno h
    · exact absurd h (by simp [vaListParam])
  · rw [Function.ctx_decl, hparams]
    simp [renderParam, vaListParam]
  · rw [hps]
    simp [renderParam]
  · intro L hL
    obtain ⟨rest, hrest⟩ := trampolineParts_shape f L hL
    rw [hrest]
    simp

/-- Witness for C3 at HPy HPyErr_Format(HPyContext ctx, const char *fmt, ...). -/
theorem variadic_slot_type_va_list_witness :
    errFormat.ctx_decl =
      "HPy (*ctx_Err_Format)(HPyContext ctx, const char *fmt, va_list _vl)" ∧
    CParam.ellipsis ∉ errFormat.ctxDeclParams := by
  have h := variadic_slot_type_va_list errFormat
    [CParam.named (some "ctx") "HPyContext ctx",
     CParam.named (some "fmt") "const char *fmt"] rfl (by decide)
  exact ⟨h.2.2.1, h.2.1⟩

/-- The (invalid-C) declaration void HPy_Fatal(...) whose parameter list is
solely the ellipsis marker. -/
def onlyEllipsis : Function := ⟨"HPy_Fatal", ⟨"void", [CParam.ellipsis]⟩⟩

/-- Counterexample to C10 as stated: for a variadic callable whose
parameter list is solely the ellipsis, the params[-2] lookup does not read
the ellipsis marker at all — index -2 is out of range for a one-element
list, so the lookup itself fails (IndexError) and no parameter, ellipsis
or otherwise, is ever read; trampoline generation still fails. -/
theorem only_ellipsis_lookup_fails :
    onlyEllipsis.node.params = [CParam.ellipsis] ∧
    pyGet onlyEllipsis.node.params (-2) = none ∧
    pyGet onlyEllipsis.node.params (-2) ≠ some CParam.ellipsis ∧
    onlyEllipsis.trampolineParts = none := by decide

/-- Claim C10 as amended: trampoline generation for a variadic callable
requires at least one named fixed parameter before the ellipsis.  When the
parameter list is solely the ellipsis, the params[-2] lookup is out of
range (IndexError), so trampoline generation fails instead of producing a
wrapper; with at least one named fixed parameter before the ellipsis it
succeeds. -/
theorem variadic_trampoline_precondition (f g : Function)
    (hf : f.node.params = [CParam.ellipsis])
    (qs : List CParam) (lastn rl : String) (ms : List String)
    (hg : g.node.params = qs ++ [CParam.named (some lastn) rl, CParam.ellipsis])
    (hqs : strictNames qs = some ms) :
    f.trampolineParts = none ∧
    pyGet f.node.params (-2) = none ∧
    (g.trampolineParts).isSome = true := by
  obtain ⟨h1, h2⟩ := trampolineParts_only_ellipsis f hf
  refine ⟨h1, h2, ?_⟩
  rw [trampolineParts_variadic g qs lastn rl ms hg hqs]
  rfl

/-- Witness for the amended C10, at void HPy_Fatal(...) for the failing
side and HPy HPyErr_Format(HPyContext ctx, const char *fmt, ...) for the
succeeding side. -/
theorem variadic_trampoline_precondition_witness :
    onlyEllipsis.trampolineParts = none ∧
    pyGet onlyEllipsis.node.params (-2) = none ∧
    (errFormat.trampolineParts).isSome = true :=
  variadic_trampoline_precondition onlyEllipsis errFormat rfl
    [CParam.named (some "ctx") "HPyContext ctx"] "fmt" "const char *fmt" ["ctx"]
    rfl rfl



/-- Modelled from the spec's own words, for comparison with the code's
ctx_name: "strip one optional leading underscore, then strip the canonical
prefix token, then prepend the dispatch-table prefix token", where the
canonical interface prefix token is "HPy" together with its optional
following underscore separator (as it occurs in names such as
HPy_Module_Create and HPyLong_FromLong); a name not bearing the prefix is
left unchanged, the rewrite not firing. -/
def slotNameSpec (s : String) : String :=
  match dropUL s.toList with
  | 'H' :: 'P' :: 'y' :: rest => "ctx_" ++ (dropUL rest).asString
  | _ => s

/-- Claim C5: for every accepted entry — a callable, whose declared name
starts with HPy or _HPy, and a constant slot, whose declared name starts
with h_ — the dispatch-table field name produced by the code (the regex
substitution for Function, the identity for GlobalVar) coincides with the
spec's prefix-rewrite rule, a deterministic pure function of the declared
name. -/
theorem slot_name_prefix_rewrite (f : Function) (g : GlobalVar)
    (hf : (pyStartsWith f.name "HPy" || pyStartsWith f.name "_HPy") = true)
    (hg : pyStartsWith g.name "h_" = true) :
    f.ctx_name = slotNameSpec f.name ∧ g.ctx_name = slotNameSpec g.name := by
  constructor
  · rcases Bool.or_eq_true_iff.mp hf with h | h
    · obtain ⟨t, ht⟩ := pyStartsWith_toList h
      have ht' : f.name.toList = 'H' :: 'P' :: 'y' :: t := ht
      unfold Function.ctx_name slotNameSpec
      rw [ht']
      rfl
    · obtain ⟨t, ht⟩ := pyStartsWith_toList h
      have ht' : f.name.toList = '_' :: 'H' :: 'P' :: 'y' :: t := ht
      unfold Function.ctx_name slotNameSpec
      rw [ht']
      rfl
  · obtain ⟨t, ht⟩ := pyStartsWith_toList hg
    have ht' : g.name.toList = 'h' :: '_' :: t := ht
    unfold GlobalVar.ctx_name slotNameSpec
    rw [ht']
    rfl

/-- The declaration HPy HPyModule_Create(HPyContext ctx, HPyModuleDef *def)
(scenario A / the worked example in the source comments). -/
def moduleCreate : Function :=
  ⟨"HPyModule_Create",
   ⟨"HPy", [CParam.named (some "ctx") "HPyContext ctx",
            CParam.named (some "def") "HPyModuleDef *def"]⟩⟩

/-- The constant declaration HPy h_None. -/
def hNone : GlobalVar := ⟨"h_None", ⟨"HPy"⟩⟩

/-- Witness for C5 at HPyModule_Create and h_None. -/
theorem slot_name_prefix_rewrite_witness :
    moduleCreate.ctx_name = slotNameSpec "HPyModule_Create" ∧
    hNone.ctx_name = slotNameSpec "h_None" :=
  slot_name_prefix_rewrite moduleCreate hNone (by decide) (by decide)

/-- The parameter list (HPyContext ctx) shared by the two colliding
declarations. -/
def dupNode : FuncNode := ⟨"HPy", [CParam.named (some "ctx") "HPyContext ctx"]⟩

def dupA : Function := ⟨"HPy_Dup", dupNode⟩

def dupB : Function := ⟨"_HPyDup", dupNode⟩

/-- Two top-level declarations with distinct declared names that normalize
to the same slot name ctx_Dup. -/
def collisionInput : List RawDecl :=
  [RawDecl.func "HPy_Dup" dupNode, RawDecl.func "_HPyDup" dupNode]

/-- Claim C2 is violated by the code: the generator has no injectivity
check anywhere.  Two distinct accepted declared names, HPy_Dup and
_HPyDup, both normalize to slot name ctx_Dup, yet the run completes and
writes all four artifacts (with a duplicate struct field), where the claim
requires an abort with zero output files. -/
theorem slot_collision_not_detected :
    dupA.ctx_name = dupB.ctx_name ∧
    dupA.name ≠ dupB.name ∧
    classify collisionInput =
      Except.ok [Declaration.func dupA, Declaration.func dupB] ∧
    exceptOk (runMain collisionInput) = true := by
  refine ⟨rfl, by decide, rfl, rfl⟩



/-- The trampoline texts of the surviving entries, in declaration order:
callables contribute their trampoline text (an exception aborts the whole
computation), constant slots contribute nothing. -/
def survivingTrampolines : List Declaration → Option (List String)
  | [] => some []
  | d :: ds =>
    match d.trampoline_def with
    | none => none
    | some none => survivingTrampolines ds
    | some (some t) => (survivingTrampolines ds).map (fun ts => t :: ts)

/-- The accumulator-passing loop of gen_func_trampolines produces the
surviving trampolines in declaration order, each followed by a blank
line. -/
theorem trampolineLoop_eq :
    ∀ (ds : List Declaration) (acc : List String),
      trampolineLoop acc ds =
        (survivingTrampolines ds).map
          (fun ts => acc ++ ts.flatMap (fun t => [t, ""])) := by
  intro ds
  induction ds with
  | nil => intro acc; simp [trampolineLoop, survivingTrampolines]
  | cons d ds ih =>
    intro acc
    cases hd : d.trampoline_def with
    | none => simp [trampolineLoop, survivingTrampolines, hd]
    | some t =>
      cases t with
      | none =>
        simp only [trampolineLoop, survivingTrampolines, hd]
        exact ih acc
      | some s =>
        simp only [trampolineLoop, survivingTrampolines, hd]
        rw [ih (acc ++ [s, ""])]
        cases hs : survivingTrampolines ds <;> simp [List.append_assoc]

/-- Claim C4: each of the four artifacts lists the surviving entries in
original declaration order — each generator's line list is the fixed
header lines followed by exactly the map of a per-entry line over the
declaration list, with no reordering — and in the struct declaration, the
initializer and the pypy descriptor the integer ctx_version field is the
first field, preceding every entry regardless of how many follow. -/
theorem declaration_order_preserved (ds : List Declaration) :
    gen_ctx_decl ds = joinWith "\n"
      ("struct _HPyContext_s \x7b" :: "    int ctx_version;" ::
        (ds.map (fun d => "    " ++ d.ctx_decl ++ ";") ++ ["\x7d;"])) ∧
    gen_ctx_def ds = joinWith "\n"
      ("struct _HPyContext_s global_ctx = \x7b" :: "    .ctx_version = 1," ::
        (ds.map (fun d => "    ." ++ d.ctx_name ++ " = " ++ d.ctx_impl_name ++ ",") ++
          ["\x7d;"])) ∧
    gen_pypy_decl ds = joinWith "\n"
      ("HPyContextS = rffi.CStruct(\x27_HPyContext_s\x27," ::
        "    (\x27ctx_version\x27, rffi.INT_real)," ::
        (ds.map (fun d => "    (\x27" ++ d.ctx_name ++ "\x27, " ++ d.ctx_pypy_type ++ "),") ++
          ["    hints=\x7b\x27eci\x27: eci\x7d,", ")"])) ∧
    gen_func_trampolines ds =
      (survivingTrampolines ds).map
        (fun ts => joinWith "\n" (ts.flatMap (fun t => [t, ""]))) := by
  refine ⟨?_, ?_, ?_, ?_⟩
  · rw [gen_ctx_decl, foldl_append_map]
    simp
  · rw [gen_ctx_def, foldl_append_map]
    simp
  · rw [gen_pypy_decl, foldl_append_map]
    simp
  · rw [gen_func_trampolines, trampolineLoop_eq]
    cases survivingTrampolines ds <;> simp



/-- Counterexample to C6 as stated: the initializer does not bind a
callable slot to the address of its trampoline.  For HPyModule_Create the
initializer token is "&ctx_Module_Create", while the generated trampoline
is the static inline function whose defined name is the original declared
name HPyModule_Create (its signature line is the second trampoline part);
"&ctx_Module_Create" is not the address-of token of that trampoline. -/
theorem initializer_not_trampoline_address :
    moduleCreate.ctx_impl_name = "&ctx_Module_Create" ∧
    (moduleCreate.trampolineParts.bind (fun l => l[1]?)) =
      some "HPy HPyModule_Create(HPyContext ctx, HPyModuleDef *def)" ∧
    moduleCreate.ctx_impl_name ≠ "&" ++ moduleCreate.name := by
  refine ⟨rfl, rfl, by decide⟩

/-- Claim C6 as amended: the initializer opens with .ctx_version = 1 (the
fixed ABI version constant), then exactly one field initializer per
declared field in field order; each callable slot is bound to the address
of the like-named context implementation function "&" ++ slot name (not to
the generated trampoline, which keeps the original declared name); each
constant slot is bound to the constant-lookup token derived by uppercasing
the slot name. -/
theorem initializer_structure (ds : List Declaration) :
    gen_ctx_def ds = joinWith "\n"
      ("struct _HPyContext_s global_ctx = \x7b" :: "    .ctx_version = 1," ::
        (ds.map (fun d => "    ." ++ d.ctx_name ++ " = " ++ d.ctx_impl_name ++ ",") ++
          ["\x7d;"])) ∧
    (∀ f : Function, (Declaration.func f).ctx_impl_name = "&" ++ f.ctx_name) ∧
    (∀ g : GlobalVar, (Declaration.var g).ctx_impl_name =
      "(HPy)\x7bCONSTANT_" ++ pyUpper g.name ++ "\x7d") := by
  refine ⟨?_, fun f => rfl, fun g => rfl⟩
  rw [gen_ctx_def, foldl_append_map]
  simp



/-- A function declaration that the classifier accepts by name (HPy /
_HPy) but that has an unnamed parameter. -/
def hasUnnamedParam : RawDecl → Bool
  | RawDecl.func name node =>
    (pyStartsWith name "HPy" || pyStartsWith name "_HPy") &&
      node.params.any (fun p =>
        match p with
        | CParam.named none _ => true
        | _ => false)
  | _ => false

/-- A variable declaration that the classifier accepts by name (h_) but
whose type is not the fixed handle type HPy. -/
def hasWrongConstType : RawDecl → Bool
  | RawDecl.var name node => pyStartsWith name "h_" && !(node.typC == "HPy")
  | _ => false

/-- A malformed declaration makes the visitor step raise, whatever has
been accumulated so far. -/
theorem classifyDecl_error_of_malformed (r : RawDecl)
    (h : hasUnnamedParam r = true ∨ hasWrongConstType r = true)
    (acc : List Declaration) : ∃ m, classifyDecl acc r = Except.error m := by
  rcases h with h | h
  · cases r with
    | func name node =>
      simp only [hasUnnamedParam, Bool.and_eq_true] at h
      obtain ⟨h1, h2⟩ := h
      exact ⟨"non-named argument in declaration of " ++ name,
        by simp [classifyDecl, h1, h2]⟩
    | var name node => simp [hasUnnamedParam] at h
    | other => simp [hasUnnamedParam] at h
  · cases r with
    | func name node => simp [hasWrongConstType] at h
    | var name node =>
      simp only [hasWrongConstType, Bool.and_eq_true] at h
      obtain ⟨h1, h2⟩ := h
      refine ⟨"AssertionError: toC(node.type.type) == HPy", ?_⟩
      simp only [classifyDecl, h1, if_true]
      rw [if_neg]
      simp only [Bool.not_eq_true'] at h2
      exact fun hc => by simp [hc] at h2
    | other => simp [hasWrongConstType] at h

/-- If any element of the list makes the visitor step raise, collection
raises. -/
theorem classify_error_of_mem :
    ∀ (raws : List RawDecl) (acc : List Declaration) (r : RawDecl),
      r ∈ raws → (∀ acc', ∃ m, classifyDecl acc' r = Except.error m) →
      ∃ m, raws.foldlM classifyDecl acc = Except.error m := by
  intro raws
  induction raws with
  | nil => intro acc r hr _; simp at hr
  | cons a as ih =>
    intro acc r hr herr
    rcases List.mem_cons.mp hr with rfl | hr'
    · obtain ⟨m, hm⟩ := herr acc
      exact ⟨m, by rw [List.foldlM_cons, hm]; rfl⟩
    · cases ha : classifyDecl acc a with
      | error m => exact ⟨m, by rw [List.foldlM_cons, ha]; rfl⟩
      | ok acc' =>
        obtain ⟨m, hm⟩ := ih acc' r hr' herr
        exact ⟨m, by rw [List.foldlM_cons, ha]; exact hm⟩

/-- Claim C7: an input containing a malformed declaration — an accepted-by-
name function with an unnamed parameter, or an accepted-by-name constant
whose type is not HPy — fails fatally during classification
(AutoGen.__init__), which in main() runs before any generator and before
any output file is opened: the whole run errors and no artifact exists. -/
theorem malformed_declaration_fatal (raws : List RawDecl) (r : RawDecl)
    (hmem : r ∈ raws)
    (hbad : hasUnnamedParam r = true ∨ hasWrongConstType r = true) :
    ∃ m, classify raws = Except.error m ∧ runMain raws = Except.error m := by
  obtain ⟨m, hm⟩ := classify_error_of_mem raws [] r hmem
    (classifyDecl_error_of_malformed r hbad)
  have hm' : classify raws = Except.error m := hm
  refine ⟨m, hm', ?_⟩
  rw [runMain, hm']

/-- Input with an unnamed parameter in an HPy function declaration. -/
def badInput : List RawDecl :=
  [RawDecl.func "HPy_Close" ⟨"void", [CParam.named none "HPy"]⟩]

/-- Witness for C7 at a declaration void HPy_Close(HPy) with an unnamed
parameter. -/
theorem malformed_declaration_fatal_witness :
    ∃ m, classify badInput = Except.error m ∧ runMain badInput = Except.error m :=
  malformed_declaration_fatal badInput
    (RawDecl.func "HPy_Close" ⟨"void", [CParam.named none "HPy"]⟩)
    (by decide) (Or.inl (by decide))



theorem pyToList_append (s t : String) : (s ++ t).toList = s.toList ++ t.toList :=
  String.data_append s t

theorem isPrefixOf_self_append {α : Type} [BEq α] [LawfulBEq α] :
    ∀ (l t : List α), l.isPrefixOf (l ++ t) = true := by
  intro l t
  induction l with
  | nil => simp [List.isPrefixOf]
  | cons a as ih => simp [List.isPrefixOf, ih]

theorem pyStartsWith_append_self (p t : String) : pyStartsWith (p ++ t) p = true := by
  unfold pyStartsWith
  rw [pyToList_append]
  exact isPrefixOf_self_append p.toList t.toList

theorem pyStartsWith_false_of_head_ne {s p : String} {c d : Char}
    (hs : s.toList.head? = some c) (hp : p.toList.head? = some d)
    (hne : ¬ d = c) : pyStartsWith s p = false := by
  unfold pyStartsWith
  cases hsl : s.toList with
  | nil => rw [hsl] at hs; cases hs
  | cons c' cs =>
    cases hpl : p.toList with
    | nil => rw [hpl] at hp; cases hp
    | cons d' ds =>
      rw [hsl] at hs
      rw [hpl] at hp
      simp only [List.head?_cons, Option.some.injEq] at hs hp
      subst hs
      subst hp
      simp [List.isPrefixOf, hne]

/-- Inversion of a successful run: the artifacts are exactly the three
DISCLAIMER-prefixed files plus the bare pypy file. -/
theorem runMain_ok_shape (raws : List RawDecl) (a : Artifacts)
    (h : runMain raws = Except.ok a) :
    ∃ decls tramp, classify raws = Except.ok decls ∧
      gen_func_trampolines decls = some tramp ∧
      a = { autogen_ctx := DISCLAIMER ++ "\n" ++ gen_ctx_decl decls ++ "\n"
            autogen_func := DISCLAIMER ++ "\n" ++ tramp ++ "\n"
            autogen_ctx_def := DISCLAIMER ++ "\n" ++ gen_ctx_def decls ++ "\n"
            autogen_pypy := gen_pypy_decl decls ++ "\n" } := by
  rw [runMain] at h
  cases hc : classify raws with
  | error e =>
    simp only [hc] at h
    exact Except.noConfusion h
  | ok decls =>
    simp only [hc] at h
    cases hg : gen_func_trampolines decls with
    | none =>
      simp only [hg] at h
      exact Except.noConfusion h
    | some s =>
      simp only [hg, Except.ok.injEq] at h
      exact ⟨decls, s, rfl, hg, h.symm⟩



/-- The pypy descriptor text always begins with its fixed first line. -/
theorem gen_pypy_decl_head (ds : List Declaration) :
    ∃ u, gen_pypy_decl ds =
      "HPyContextS = rffi.CStruct(\x27_HPyContext_s\x27," ++ u := by
  rw [gen_pypy_decl, foldl_append_map]
  exact joinWith_cons_exists "\n" _ _

/-- Scenario A input: one callable HPyModule_Create and one constant
h_None. -/
def demoInput : List RawDecl :=
  [RawDecl.func "HPyModule_Create" moduleCreate.node,
   RawDecl.var "h_None" ⟨"HPy"⟩]

/-- Counterexample to C8 as stated: on a successful run over scenario A,
the fourth artifact (the pypy foreign-descriptor listing) does not begin
with the DISCLAIMER notice — main() writes autogen_pypy.txt without
printing DISCLAIMER first. -/
theorem pypy_descriptor_lacks_disclaimer :
    (runMain demoInput).map
      (fun a => pyStartsWith a.autogen_pypy DISCLAIMER) = Except.ok false := by
  rfl

/-- Claim C8 as amended: on every successful run, the three C artifacts
(struct declaration, trampoline set, static initializer) begin with the
fixed DISCLAIMER notice, while the foreign-runtime descriptor listing is
written without it. -/
theorem disclaimer_on_c_artifacts (raws : List RawDecl) (a : Artifacts)
    (h : runMain raws = Except.ok a) :
    pyStartsWith a.autogen_ctx DISCLAIMER = true ∧
    pyStartsWith a.autogen_func DISCLAIMER = true ∧
    pyStartsWith a.autogen_ctx_def DISCLAIMER = true ∧
    pyStartsWith a.autogen_pypy DISCLAIMER = false := by
  obtain ⟨decls, tramp, _, _, ha⟩ := runMain_ok_shape raws a h
  subst ha
  refine ⟨?_, ?_, ?_, ?_⟩
  · have e : DISCLAIMER ++ "\n" ++ gen_ctx_decl decls ++ "\n" =
        DISCLAIMER ++ ("\n" ++ (gen_ctx_decl decls ++ "\n")) := by
      simp [String.append_assoc]
    rw [e]
    exact pyStartsWith_append_self _ _
  · have e : DISCLAIMER ++ "\n" ++ tramp ++ "\n" =
        DISCLAIMER ++ ("\n" ++ (tramp ++ "\n")) := by
      simp [String.append_assoc]
    rw [e]
    exact pyStartsWith_append_self _ _
  · have e : DISCLAIMER ++ "\n" ++ gen_ctx_def decls ++ "\n" =
        DISCLAIMER ++ ("\n" ++ (gen_ctx_def decls ++ "\n")) := by
      simp [String.append_assoc]
    rw [e]
    exact pyStartsWith_append_self _ _
  · obtain ⟨u, hu⟩ := gen_pypy_decl_head decls
    rw [hu]
    refine pyStartsWith_false_of_head_ne (c := 'H') (d := Char.ofNat 10) ?_ ?_ ?_
    · rw [pyToList_append, pyToList_append]
      rfl
    · rfl
    · decide

/-- The artifacts of a run over scenario A. -/
def demoArtifacts : Artifacts :=
  match runMain demoInput with
  | Except.ok a => a
  | Except.error _ => ⟨"", "", "", ""⟩

/-- Witness for amended C8 at scenario A. -/
theorem disclaimer_on_c_artifacts_witness :
    pyStartsWith demoArtifacts.autogen_ctx DISCLAIMER = true ∧
    pyStartsWith demoArtifacts.autogen_func DISCLAIMER = true ∧
    pyStartsWith demoArtifacts.autogen_ctx_def DISCLAIMER = true ∧
    pyStartsWith demoArtifacts.autogen_pypy DISCLAIMER = false :=
  disclaimer_on_c_artifacts demoInput demoArtifacts rfl

/-- Claim C9: generation is deterministic and idempotent.  The embedding
is a pure function of the declaration input — matching the source, where
AutoGen recomputes every entity from the freshly parsed header on each
invocation and no module-level state carries information between runs —
so two runs over the same unchanged input yield byte-identical text for
all four artifacts. -/
theorem regeneration_idempotent (raws : List RawDecl) (a₁ a₂ : Artifacts)
    (h₁ : runMain raws = Except.ok a₁) (h₂ : runMain raws = Except.ok a₂) :
    a₁.autogen_ctx = a₂.autogen_ctx ∧
    a₁.autogen_func = a₂.autogen_func ∧
    a₁.autogen_ctx_def = a₂.autogen_ctx_def ∧
    a₁.autogen_pypy = a₂.autogen_pypy := by
  rw [h₁] at h₂
  injection h₂ with h
  subst h
  exact ⟨rfl, rfl, rfl, rfl⟩

/-- Witness for C9 at scenario A. -/
theorem regeneration_idempotent_witness :
    demoArtifacts.autogen_ctx = demoArtifacts.autogen_ctx ∧
    demoArtifacts.autogen_func = demoArtifacts.autogen_func ∧
    demoArtifacts.autogen_ctx_def = demoArtifacts.autogen_ctx_def ∧
    demoArtifacts.autogen_pypy = demoArtifacts.autogen_pypy :=
  regeneration_idempotent demoInput demoArtifacts demoArtifacts rfl rfl


end Autogen
